import Mathlib

/-!
Verification development for the DragonsFieldServer session/zone-transfer
engine (src/server/index.ts, second revision: the `io.on("connection")`
block registering the `joinSession`/`moveCard`/`nextTurn`/... handlers that
operate on players carrying `isOnline`/`sideboard`/`commanders` fields).

The TypeScript handlers mutate a per-session `Session` object in place and
emit socket events.  Here they are embedded as pure functions
`State → State × List Emit`; `Math.random()` draws are threaded in as
explicit `Nat → Nat` streams (the source computes `j = floor(random * (i+1))`,
embedded as `rand i % (i+1)`), so every definition is executable.
-/

namespace DragonsField

/-- Shape of `type Zone` (second revision): the seven card containers of a
player that the handlers address by name. -/
inductive Zone where
  | hand
  | library
  | battlefield
  | graveyard
  | exile
  | commanderZone
  | sideboard
  deriving Repr, DecidableEq

/-- Shape of `type SessionType`. -/
inductive SessionType where
  | standard
  | commander
  deriving Repr, DecidableEq

/-- Shape of `interface TokenData`. -/
structure TokenData where
  name : String
  type_line : String
  basePower : Option String
  baseToughness : Option String
  image : Option String
  mana_value : Int
  mana_cost : Option String
  deriving Repr, DecidableEq

/-- Shape of `interface CardType` (second revision).  Optional TypeScript
fields become `Option`; `name` is declared `string` in TS but the `flipCard`
handler assigns `card.secondFaceName!` to it, and the non-null assertion is
erased at runtime, so the runtime value may be `undefined`: the embedding
therefore gives `name` the honest type `Option String`. -/
structure CardType where
  id : String
  name : Option String
  image : Option String
  mana_cost : Option String
  mana_value : Int
  type_line : Option String
  basePower : Option String
  baseToughness : Option String
  loyalty : Option Int
  hasSecondFace : Bool
  secondFaceName : Option String
  secondFaceImage : Option String
  secondFaceManaCost : Option String
  secondFaceManaValue : Option Int
  secondFaceTypeLine : Option String
  secondFaceBasePower : Option String
  secondFaceBaseToughness : Option String
  secondFaceLoyalty : Option Int
  tokens : Option (List TokenData)
  deriving Repr, DecidableEq

/-- Shape of the inline `stats` record of `interface CardOnField`. -/
structure Stats where
  power : Int
  toughness : Int
  deriving Repr, DecidableEq

/-- Shape of `interface CardOnField` (second revision). -/
structure CardOnField where
  id : String
  card : CardType
  x : Int
  y : Int
  rotation : Int
  isFlipped : Bool
  stats : Stats
  counters : Int
  isToken : Bool
  deriving Repr, DecidableEq

/-- Shape of the `manaPool` record of `interface Player`. -/
structure ManaPool where
  W : Int
  U : Int
  B : Int
  R : Int
  G : Int
  C : Int
  deriving Repr, DecidableEq

/-- Shape of `interface Player` (second revision).  The open-ended
`counters : { [key: string]: number }` record is embedded as an
association list. -/
structure Player where
  id : String
  name : String
  isOnline : Bool
  life : Int
  initialDeck : List CardType
  initialSideboard : List CardType
  library : List CardType
  hand : List CardType
  battlefield : List CardOnField
  graveyard : List CardType
  exile : List CardType
  commanderZone : List CardType
  commanders : Option (List CardType)
  sideboard : List CardType
  manaPool : ManaPool
  counters : List (String × Int)
  deriving Repr, DecidableEq

/-- Shape of `interface Session` (second revision). -/
structure Session where
  code : String
  players : List Player
  turn : Int
  activePlayer : String
  sessionType : SessionType
  deriving Repr, DecidableEq

/-- Observable emissions of a handler: `io.to(code).emit("updateState", …)`
to the session room, or `socket.emit("error", …)` to the requester only. -/
inductive Emit where
  | updateState
  | errorMsg
  deriving Repr, DecidableEq

/-- Zero mana pool, `{ W: 0, U: 0, B: 0, R: 0, G: 0, C: 0 }`. -/
def manaZero : ManaPool := ⟨0, 0, 0, 0, 0, 0⟩

/-- The fixed initial `counters` record the handlers install. -/
def initCounters : List (String × Int) :=
  [("Poison", 0), ("Energy", 0), ("Experience", 0), ("Rad", 0), ("Tickets", 0),
   ("Commander 1", 0), ("Commander 2", 0), ("Commander 3", 0)]

/-- Embedding of the `findIndex` + `splice(idx, 1)` pattern: first element
satisfying the predicate together with the list with that element removed. -/
def findRemove (pred : α → Bool) : List α → Option (α × List α)
  | [] => none
  | x :: xs =>
    if pred x then some (x, xs)
    else
      match findRemove pred xs with
      | none => none
      | some (y, ys) => some (y, x :: ys)

/-- Embedding of `array.find(pred)` followed by an in-place mutation of the
found object: rewrite the first element satisfying the predicate. -/
def updateFirstP (pred : α → Bool) (f : α → α) : List α → List α
  | [] => []
  | x :: xs => if pred x then f x :: xs else x :: updateFirstP pred f xs

/-- Variant of `updateFirstP` for handler bodies that also emit events;
returns `none` when no element satisfies the predicate (the handler's
`if (!player) return` path). -/
def updateFirstE (pred : α → Bool) (f : α → α × List Emit) :
    List α → Option (List α × List Emit)
  | [] => none
  | x :: xs =>
    if pred x then
      some ((f x).1 :: xs, (f x).2)
    else
      match updateFirstE pred f xs with
      | none => none
      | some (ys, em) => some (x :: ys, em)

/-- Embedding of the `findIndex(card => card.id === X)` + `splice` deletion
used to pull a commander out of the deck-to-shuffle: drop the first card
with the given id, or leave the list unchanged when absent. -/
def removeFirstById (l : List CardType) (i : String) : List CardType :=
  match findRemove (fun c => c.id = i) l with
  | none => l
  | some (_, rest) => rest

/-- Embedding of the destructuring swap
`[result[i], result[j]] = [result[j], result[i]]`. -/
def swapIdx (l : List α) (i j : Nat) : List α :=
  match l[i]?, l[j]? with
  | some a, some b => (l.set i b).set j a
  | _, _ => l

/-- Loop body of the Fisher–Yates `shuffle` (second revision): iterate
`i = n-1 … 1`, swapping index `i` with `j = rand i % (i+1)` (the source's
`Math.floor(Math.random() * (i + 1))`, with the random draw threaded in as
the stream `rand`). -/
def fyLoop (rand : Nat → Nat) : Nat → List α → List α
  | 0, l => l
  | Nat.succ k, l => fyLoop rand k (swapIdx l (k + 1) (rand (k + 1) % (k + 2)))

/-- Embedding of `function shuffle<T>(array: T[])`. -/
def shuffle (rand : Nat → Nat) (l : List α) : List α :=
  fyLoop rand (l.length - 1) l

/-- Embedding of the draw loop
`for (let i = 0; i < n && player.library.length > 0; i++) { shift; push }`. -/
def drawN : Nat → Player → Player
  | 0, p => p
  | Nat.succ n, p =>
    match p.library with
    | [] => p
    | c :: rest => drawN n { p with library := rest, hand := p.hand ++ [c] }

/-- Payload of the `moveCard` intent (the handler's destructured argument;
`code` and `playerId` are passed separately to the session-level function). -/
structure MoveArgs where
  fromZone : Zone
  toZone : Zone
  cardId : String
  x : Option Int
  y : Option Int
  toBottom : Option Bool
  deriving Repr, DecidableEq

/-- The union `CardType | CardOnField` the `moveCard` handler manipulates
after reading `player[from]`: battlefield entries are `CardOnField`, every
other zone holds plain `CardType`s. -/
inductive ZoneItem where
  | onField (c : CardOnField)
  | plain (c : CardType)
  deriving Repr, DecidableEq

/-- Embedding of the source-zone lookup of `moveCard`: read `player[from]`,
`findIndex` the card with the requested id and `splice` it out, returning
the removed union element and the player with the source zone shortened.
`none` is the handler's `cardIndex === -1` resynchronization path. -/
def zoneFindRemove (z : Zone) (cid : String) (p : Player) :
    Option (ZoneItem × Player) :=
  match z with
  | Zone.battlefield =>
    (findRemove (fun c => c.id = cid) p.battlefield).map
      (fun r => (ZoneItem.onField r.1, { p with battlefield := r.2 }))
  | Zone.hand =>
    (findRemove (fun c => c.id = cid) p.hand).map
      (fun r => (ZoneItem.plain r.1, { p with hand := r.2 }))
  | Zone.library =>
    (findRemove (fun c => c.id = cid) p.library).map
      (fun r => (ZoneItem.plain r.1, { p with library := r.2 }))
  | Zone.graveyard =>
    (findRemove (fun c => c.id = cid) p.graveyard).map
      (fun r => (ZoneItem.plain r.1, { p with graveyard := r.2 }))
  | Zone.exile =>
    (findRemove (fun c => c.id = cid) p.exile).map
      (fun r => (ZoneItem.plain r.1, { p with exile := r.2 }))
  | Zone.commanderZone =>
    (findRemove (fun c => c.id = cid) p.commanderZone).map
      (fun r => (ZoneItem.plain r.1, { p with commanderZone := r.2 }))
  | Zone.sideboard =>
    (findRemove (fun c => c.id = cid) p.sideboard).map
      (fun r => (ZoneItem.plain r.1, { p with sideboard := r.2 }))

/-- Embedding of step 4 of `moveCard` (insertion into the destination).
For `battlefield` the card is rewrapped as a fresh `CardOnField`, with the
source's `x ?? original?.x ?? 50` defaulting chain and the
`from === "battlefield" ? original!.stats : {0,0}` stat reset; the non-null
assertion is sound there because a battlefield source always yields an
`original`, and the embedding supplies the same value through `getD`.
`library` prepends (top) or appends (bottom) according to `toBottom`,
`commanderZone` prepends, and the remaining zones append.  The handler's
non-array-destination error branch is unreachable for the seven `Zone`
values, all of which name array properties of `Player`. -/
def insertDest (a : MoveArgs) (pureCardType : CardType)
    (originalCardOnField : Option CardOnField) (p : Player) : Player :=
  match a.toZone with
  | Zone.battlefield =>
    let cardOnField : CardOnField :=
      { id := a.cardId
        card := pureCardType
        x := a.x.getD ((originalCardOnField.map CardOnField.x).getD 50)
        y := a.y.getD ((originalCardOnField.map CardOnField.y).getD 50)
        rotation := (originalCardOnField.map CardOnField.rotation).getD 0
        isFlipped := (originalCardOnField.map CardOnField.isFlipped).getD false
        isToken := (originalCardOnField.map CardOnField.isToken).getD false
        stats :=
          if a.fromZone = Zone.battlefield then
            (originalCardOnField.map CardOnField.stats).getD ⟨0, 0⟩
          else ⟨0, 0⟩
        counters :=
          if a.fromZone = Zone.battlefield then
            (originalCardOnField.map CardOnField.counters).getD 0
          else 0 }
    { p with battlefield := p.battlefield ++ [cardOnField] }
  | Zone.library =>
    if a.toBottom.getD false then { p with library := p.library ++ [pureCardType] }
    else { p with library := pureCardType :: p.library }
  | Zone.commanderZone => { p with commanderZone := pureCardType :: p.commanderZone }
  | Zone.hand => { p with hand := p.hand ++ [pureCardType] }
  | Zone.graveyard => { p with graveyard := p.graveyard ++ [pureCardType] }
  | Zone.exile => { p with exile := p.exile ++ [pureCardType] }
  | Zone.sideboard => { p with sideboard := p.sideboard ++ [pureCardType] }

/-- Steps 2–4 of the `moveCard` handler: locate-and-remove in the source
zone (broadcasting the unchanged state on a missing card), then insert into
the destination and broadcast. -/
def movePlayerCardGeneric (a : MoveArgs) (p : Player) : Player × List Emit :=
  match zoneFindRemove a.fromZone a.cardId p with
  | none => (p, [Emit.updateState])
  | some (item, p1) =>
    let pureCardType := match item with | ZoneItem.onField c => c.card | ZoneItem.plain c => c
    let originalCardOnField :=
      match item with | ZoneItem.onField c => some c | ZoneItem.plain _ => none
    (insertDest a pureCardType originalCardOnField p1, [Emit.updateState])

/-- Per-player embedding of the `moveCard` handler (second revision).  The
`from`-validation branch always passes for the seven `Zone` values (each
names a real array property of `Player`).  The token branch runs first:
leaving the battlefield for another zone, a missing card returns silently
(no broadcast), and a token is deleted outright; otherwise control falls
through to the generic transfer. -/
def movePlayerCardE (a : MoveArgs) (p : Player) : Player × List Emit :=
  if a.fromZone = Zone.battlefield ∧ a.toZone ≠ Zone.battlefield then
    match findRemove (fun c => c.id = a.cardId) p.battlefield with
    | none => (p, [])
    | some (c, rest) =>
      if c.isToken then ({ p with battlefield := rest }, [Emit.updateState])
      else movePlayerCardGeneric a p
  else movePlayerCardGeneric a p

/-- Session-level `moveCard`: look up the requesting player by id (the
handler's `session.players.find`) and apply the per-player transfer to the
first match; an unknown player returns without mutation or broadcast. -/
def moveCardE (a : MoveArgs) (playerId : String) (s : Session) :
    Session × List Emit :=
  match updateFirstE (fun p => p.id = playerId) (movePlayerCardE a) s.players with
  | none => (s, [])
  | some (players1, em) => ({ s with players := players1 }, em)

/-- Default `Player`, used only to totalize list indexing at positions the
source code has already proved in range. -/
def dfltPlayer : Player :=
  { id := "", name := "", isOnline := false, life := 0, initialDeck := [],
    initialSideboard := [], library := [], hand := [], battlefield := [],
    graveyard := [], exile := [], commanderZone := [], commanders := none,
    sideboard := [], manaPool := manaZero, counters := [] }

/-- Per-player body of the `nextTurn` handler: untap the whole battlefield
(`rotation = 0`) and draw one card. -/
def nextTurnPlayerStep (p : Player) : Player :=
  let bf := p.battlefield.map (fun c => { c with rotation := 0 })
  match p.library with
  | [] => { p with battlefield := bf }
  | c :: rest => { p with battlefield := bf, library := rest, hand := p.hand ++ [c] }

/-- Embedding of the `nextTurn` handler (second revision): after untapping
and drawing for the invoking player, it increments the turn counter and
recomputes the active player from
`nextPlayerIndex = currentPlayerIndex % session.players.length` — the
source carries the comment "Zmieniono na +1" (changed to +1) but performs
no `+1`.  The `findIndex` always succeeds here because the player was
found, so the index is in range. -/
def nextTurn (playerId : String) (s : Session) : Session :=
  if (s.players.find? (fun p => p.id = playerId)).isSome then
    let players1 := updateFirstP (fun p => p.id = playerId) nextTurnPlayerStep s.players
    let currentPlayerIndex := players1.findIdx (fun p => p.id = playerId)
    let nextPlayerIndex := currentPlayerIndex % players1.length
    let nextPlayer := players1.getD nextPlayerIndex dfltPlayer
    { s with players := players1, turn := s.turn + 1, activePlayer := nextPlayer.id }
  else s

/-- Field swap of the `flipCard` handler: exchange the seven paired
front/second-face fields (name, image, mana cost, type line, base power,
base toughness, loyalty) through temporaries; `mana_value`, the id, the
`hasSecondFace` flag and the token list are not touched. -/
def flipFields (card : CardType) : CardType :=
  { card with
    name := card.secondFaceName
    image := card.secondFaceImage
    mana_cost := card.secondFaceManaCost
    type_line := card.secondFaceTypeLine
    basePower := card.secondFaceBasePower
    baseToughness := card.secondFaceBaseToughness
    loyalty := card.secondFaceLoyalty
    secondFaceName := card.name
    secondFaceImage := card.image
    secondFaceManaCost := card.mana_cost
    secondFaceTypeLine := card.type_line
    secondFaceBasePower := card.basePower
    secondFaceBaseToughness := card.baseToughness
    secondFaceLoyalty := card.loyalty }

/-- The in-place mutation `flipCard` performs on the located battlefield
entry: swap the card faces and toggle the flipped flag. -/
def flipEntry (d : CardOnField) : CardOnField :=
  { d with card := flipFields d.card, isFlipped := !d.isFlipped }

/-- Per-player embedding of the `flipCard` handler: locate the battlefield
card; with a second face, swap the paired fields and toggle `isFlipped`
(broadcast), otherwise unicast a not-a-DFC error; a missing card does
nothing. -/
def flipCardP (cardId : String) (p : Player) : Player × List Emit :=
  match p.battlefield.find? (fun c => c.id = cardId) with
  | none => (p, [])
  | some c =>
    if c.card.hasSecondFace then
      ({ p with battlefield := updateFirstP (fun d => d.id = cardId) flipEntry p.battlefield },
        [Emit.updateState])
    else (p, [Emit.errorMsg])

/-- Per-player embedding of the `resetPlayer` handler: reset life, zones,
mana and counters, reseat the designated commanders in the commander zone,
remove them (by id) from a fresh copy of `initialDeck`, shuffle the result
into the library and draw 7.  The source's guard
`currentSessionType === "commander" && player.commanderZone.length > 0`
reads the commander zone it has just set to `[...commanders]`. -/
def resetPlayerP (rand : Nat → Nat) (st : SessionType) (p : Player) : Player :=
  let fullDeckForShuffle := p.initialDeck
  let commanders := p.commanders.getD []
  let p1 := { p with
    life := if st = SessionType.commander then (40 : Int) else 20
    hand := ([] : List CardType)
    graveyard := ([] : List CardType)
    exile := ([] : List CardType)
    battlefield := ([] : List CardOnField)
    sideboard := p.initialSideboard
    manaPool := manaZero
    counters := initCounters
    commanderZone := commanders }
  if st = SessionType.commander ∧ commanders ≠ [] then
    let deck2 := commanders.foldl (fun d c => removeFirstById d c.id) fullDeckForShuffle
    drawN 7 { p1 with commanderZone := commanders, library := shuffle rand deck2 }
  else
    drawN 7 { p1 with commanderZone := [], library := shuffle rand fullDeckForShuffle }

/-- Per-player body of the `startGame` handler's `forEach`: an empty
`initialDeck` error-returns before any mutation; in commander mode with an
empty commander list the `forEach` callback error-returns after the zone
resets but before the library rebuild; otherwise commanders are removed
from the deck copy, the library reshuffled, 7 cards drawn and the player
counters reset. -/
def startGamePlayerP (rand : Nat → Nat) (st : SessionType) (p : Player) : Player :=
  if p.initialDeck.length = 0 then p
  else
    let commanders := p.commanders.getD []
    let p1 := { p with
      life := if st = SessionType.commander then (40 : Int) else 20
      hand := ([] : List CardType)
      battlefield := ([] : List CardOnField)
      graveyard := ([] : List CardType)
      exile := ([] : List CardType)
      sideboard := p.initialSideboard
      manaPool := manaZero
      commanderZone := commanders }
    if st = SessionType.commander then
      if commanders = [] then p1
      else
        let deck2 := commanders.foldl (fun d c => removeFirstById d c.id) p.initialDeck
        let p2 := drawN 7 { p1 with commanderZone := commanders, library := shuffle rand deck2 }
        { p2 with counters := initCounters }
    else
      let p2 := drawN 7 { p1 with commanderZone := [], library := shuffle rand p.initialDeck }
      { p2 with counters := initCounters }

/-- Embedding of the `draw` handler's per-player effect. -/
def drawP (count : Nat) (p : Player) : Player := drawN count p

/-- Embedding of the `shuffle` handler's per-player effect. -/
def shuffleP (rand : Nat → Nat) (p : Player) : Player :=
  { p with library := shuffle rand p.library }

/-- Embedding of the `discardRandomCard` handler's per-player effect: the
source draws `getRandomInt(hand.length)`, always in range, threaded in here
as `r % hand.length`. -/
def discardRandomP (r : Nat) (p : Player) : Player :=
  if p.hand.length = 0 then p
  else
    let randomIndex := r % p.hand.length
    match p.hand[randomIndex]? with
    | none => p
    | some c =>
      { p with hand := p.hand.eraseIdx randomIndex, graveyard := p.graveyard ++ [c] }

/-- Embedding of the `joinSession` handler (second revision).  An existing
player of the same name reconnects (transport id refreshed, marked online,
state re-broadcast); otherwise the deck is validated, commander-mode decks
lose their designated commanders (by id) to the commander zone, the rest is
shuffled into the library, the hand starts empty, and the first player of a
session becomes active with `turn = 1`. -/
def joinSessionE (socketId playerName : String) (deck sideboardCards : List CardType)
    (commanderCard : Option (List CardType)) (rand : Nat → Nat) (s : Session) :
    Session × List Emit :=
  if s.players.any (fun p => p.name = playerName) then
    let players1 := updateFirstP (fun p => p.name = playerName)
      (fun p => { p with id := socketId, isOnline := true }) s.players
    ({ s with players := players1 }, [Emit.updateState])
  else if deck.length = 0 then (s, [Emit.errorMsg])
  else
    let life : Int := if s.sessionType = SessionType.commander then 40 else 20
    let commanders := commanderCard.getD []
    if s.sessionType = SessionType.commander ∧ commanders.length = 0 then
      (s, [Emit.errorMsg])
    else
      let commanders1 := if s.sessionType = SessionType.commander then commanders else []
      let libraryForShuffle :=
        if s.sessionType = SessionType.commander then
          commanders.foldl (fun d c => removeFirstById d c.id) deck
        else deck
      let player : Player :=
        { id := socketId, name := playerName, isOnline := true, life := life,
          initialDeck := deck, initialSideboard := sideboardCards,
          library := shuffle rand libraryForShuffle, hand := [], battlefield := [],
          graveyard := [], exile := [], commanderZone := commanders1,
          commanders := some commanders1, sideboard := sideboardCards,
          manaPool := manaZero, counters := initCounters }
      let players1 := s.players ++ [player]
      let s1 :=
        if players1.length = 1 then
          { s with players := players1, activePlayer := player.id, turn := 1 }
        else { s with players := players1 }
      (s1, [Emit.updateState])

/-- Synchronous part of the transport `disconnect` handler for the session
containing the socket: mark the player offline and, when the disconnecting
player held the active-player pointer and every player is now offline,
clear the pointer and zero the turn counter.  The grace-period timer the
handler schedules afterwards fires later and is not part of processing the
disconnect itself. -/
def disconnectSession (socketId : String) (s : Session) : Session :=
  match s.players.find? (fun p => p.id = socketId) with
  | none => s
  | some _ =>
    let players1 := updateFirstP (fun p => p.id = socketId)
      (fun p => { p with isOnline := false }) s.players
    if s.activePlayer = socketId ∧ players1.all (fun p => p.isOnline = false) then
      { s with players := players1, activePlayer := "", turn := 0 }
    else
      { s with players := players1 }

/-- Embedding of the `disconnectPlayer` handler (explicit leave): refuse
with an error when the requested `playerId` is not the requester's own
transport id; otherwise remove the first matching player, handing the
active-player pointer to the first remaining player (or clearing it and
zeroing the turn when the session empties), and broadcast. -/
def disconnectPlayerE (socketId playerId : String) (s : Session) :
    Session × List Emit :=
  if playerId ≠ socketId then (s, [Emit.errorMsg])
  else
    match findRemove (fun p => p.id = playerId) s.players with
    | none => (s, [])
    | some (_, players1) =>
      let s1 :=
        if s.activePlayer = playerId then
          match players1 with
          | [] => { s with players := players1, turn := 0, activePlayer := "" }
          | q :: _ => { s with players := players1, activePlayer := q.id }
        else { s with players := players1 }
      (s1, [Emit.updateState])

/-! ### Card-conservation accounting

The spec's conservation invariant counts the multiset of non-token card
ids across the seven zones, battlefield entries contributing their base
card's id unless flagged as tokens. -/

/-- Id multiset of a plain card zone. -/
def ids (l : List CardType) : Multiset String :=
  (l.map CardType.id : Multiset String)

/-- Id multiset of the battlefield's non-token base cards. -/
def bfIds (l : List CardOnField) : Multiset String :=
  ((l.filter fun c => !c.isToken).map fun c => c.card.id : Multiset String)

/-- Multiset of non-token card ids across all seven zones of a player. -/
def nonTokenIds (p : Player) : Multiset String :=
  ids p.library + ids p.hand + bfIds p.battlefield + ids p.graveyard +
    ids p.exile + ids p.commanderZone + ids p.sideboard

/-- Contribution of a removed union element to `nonTokenIds`. -/
def itemIds : ZoneItem → Multiset String
  | ZoneItem.plain c => {c.id}
  | ZoneItem.onField c => if c.isToken then 0 else {c.card.id}

/-- Contribution of the inserted element to `nonTokenIds`. -/
def insContrib (a : MoveArgs) (pureCardType : CardType)
    (originalCardOnField : Option CardOnField) : Multiset String :=
  match a.toZone with
  | Zone.battlefield =>
    if (originalCardOnField.map CardOnField.isToken).getD false then 0
    else {pureCardType.id}
  | _ => {pureCardType.id}

/-- Fold of a sequence of per-player `moveCard` calls. -/
def applyMoves (l : List MoveArgs) (p : Player) : Player :=
  l.foldl (fun q a => (movePlayerCardE a q).1) p

/-- Tuple of the player fields that are not zone containers. -/
def frameProj (p : Player) :=
  (p.id, p.name, p.isOnline, p.life, p.initialDeck, p.initialSideboard,
    p.commanders, p.manaPool, p.counters)

/-- An intervening per-player operation: a `moveCard` zone transfer, a
`draw`, a `discardRandomCard` or a library `shuffle`. -/
inductive PlayerOp where
  | move (a : MoveArgs)
  | draw (count : Nat)
  | discardRandom (r : Nat)
  | shuffleLib (rand : Nat → Nat)

/-- Apply one intervening operation. -/
def applyOp : PlayerOp → Player → Player
  | PlayerOp.move a, p => (movePlayerCardE a p).1
  | PlayerOp.draw n, p => drawP n p
  | PlayerOp.discardRandom r, p => discardRandomP r p
  | PlayerOp.shuffleLib rand, p => shuffleP rand p

/-- Apply a sequence of intervening operations. -/
def applyOps (l : List PlayerOp) (p : Player) : Player :=
  l.foldl (fun q op => applyOp op q) p

/-- Ids of the entries of one zone container (outer `CardOnField` id for
the battlefield, card id elsewhere): what the `findIndex` of the handler
matches against in `player[from]`. -/
def zoneIdList (p : Player) (z : Zone) : List String :=
  match z with
  | Zone.battlefield => p.battlefield.map CardOnField.id
  | Zone.hand => p.hand.map CardType.id
  | Zone.library => p.library.map CardType.id
  | Zone.graveyard => p.graveyard.map CardType.id
  | Zone.exile => p.exile.map CardType.id
  | Zone.commanderZone => p.commanderZone.map CardType.id
  | Zone.sideboard => p.sideboard.map CardType.id

/-- Concrete single-faced card, used in concrete instantiations. -/
def mkCard (i : String) : CardType :=
  { id := i, name := some i, image := none, mana_cost := none, mana_value := 0,
    type_line := none, basePower := none, baseToughness := none, loyalty := none,
    hasSecondFace := false, secondFaceName := none, secondFaceImage := none,
    secondFaceManaCost := none, secondFaceManaValue := none,
    secondFaceTypeLine := none, secondFaceBasePower := none,
    secondFaceBaseToughness := none, secondFaceLoyalty := none, tokens := none }

/-- Concrete double-faced card. -/
def mkDfc (i : String) : CardType :=
  { mkCard i with
    hasSecondFace := true
    secondFaceName := some (i ++ "-back")
    secondFaceImage := some "img-back"
    secondFaceManaCost := some "2"
    secondFaceTypeLine := some "Creature"
    secondFaceBasePower := some "3"
    secondFaceBaseToughness := some "3"
    secondFaceLoyalty := some 3 }

/-- Concrete battlefield entry. -/
def mkCof (i : String) (card : CardType) (tok : Bool) : CardOnField :=
  { id := i, card := card, x := 50, y := 50, rotation := 90, isFlipped := false,
    stats := ⟨0, 0⟩, counters := 0, isToken := tok }

/-- Concrete online player. -/
def mkPlayer (pid nm : String) : Player :=
  { dfltPlayer with id := pid, name := nm, isOnline := true, life := 20 }

/-- Two-player standard session for the `nextTurn` evaluation: the player
at index 0 is active, holds one library card and one tapped battlefield
card. -/
def sessC3 : Session :=
  { code := "STND1"
    players :=
      [{ mkPlayer "p0" "Alice" with
          library := [mkCard "c1"]
          battlefield := [mkCof "b1" (mkCard "b1") false] },
        mkPlayer "p1" "Bob"]
    turn := 1
    activePlayer := "p0"
    sessionType := SessionType.standard }

/-- Session whose sole player has an empty battlefield, for the stale
`moveCard` broadcast counterexample. -/
def sessC2 : Session :=
  { code := "STND1", players := [mkPlayer "p1" "Ann"], turn := 1,
    activePlayer := "p1", sessionType := SessionType.standard }

/-- Stale `moveCard` request: battlefield → graveyard for an id that is on
no battlefield. -/
def argsC2 : MoveArgs :=
  { fromZone := Zone.battlefield, toZone := Zone.graveyard, cardId := "zz",
    x := none, y := none, toBottom := none }

/-- Session in which the active player "a" is already offline and the
non-active player "b" is the last one online. -/
def sessC8 : Session :=
  { code := "CMDR1"
    players := [{ mkPlayer "a" "A" with isOnline := false }, mkPlayer "b" "B"]
    turn := 3
    activePlayer := "a"
    sessionType := SessionType.commander }

/-- Player with a single token on the battlefield and no other cards. -/
def playerC4 : Player :=
  { mkPlayer "p1" "Tok" with battlefield := [mkCof "t1" (mkCard "t1") true] }

/-- Request moving that token from the battlefield to the graveyard. -/
def argsC4 : MoveArgs :=
  { fromZone := Zone.battlefield, toZone := Zone.graveyard, cardId := "t1",
    x := none, y := none, toBottom := none }

/-- Player with a double-faced card on the battlefield. -/
def playerC6 : Player :=
  { mkPlayer "p1" "Dee" with battlefield := [mkCof "d1" (mkDfc "d1") false] }

/-- Commander player for the reset witness: full deck of three with the
first card designated commander. -/
def playerC5 : Player :=
  { mkPlayer "p1" "Cmd" with
    initialDeck := [mkCard "X", mkCard "A", mkCard "B"]
    commanders := some [mkCard "X"] }

/-- Empty commander session for the join witness. -/
def sessC7 : Session :=
  { code := "CMDR1", players := [], turn := 0, activePlayer := "",
    sessionType := SessionType.commander }

/-- Deck submitted in the join witness. -/
def deckC7 : List CardType := [mkCard "X", mkCard "A", mkCard "B"]

theorem findRemove_perm (pred : α → Bool) :
    ∀ (l rest : List α) (c : α), findRemove pred l = some (c, rest) →
      List.Perm l (c :: rest)
  | [], _, _, h => by simp [findRemove] at h
  | x :: xs, rest, c, h => by
    by_cases hx : pred x
    · simp [findRemove, hx] at h
      obtain ⟨rfl, rfl⟩ := h
      exact List.Perm.refl _
    · simp only [findRemove, hx, Bool.false_eq_true, if_false] at h
      cases e : findRemove pred xs with
      | none => rw [e] at h; exact absurd h (by simp)
      | some r =>
        obtain ⟨y, ys⟩ := r
        rw [e] at h
        simp only [Option.some.injEq, Prod.mk.injEq] at h
        obtain ⟨rfl, rfl⟩ := h
        exact (List.Perm.cons x (findRemove_perm pred xs ys y e)).trans
          (List.Perm.swap y x ys)

theorem findRemove_pred (pred : α → Bool) :
    ∀ (l rest : List α) (c : α), findRemove pred l = some (c, rest) →
      pred c = true
  | [], _, _, h => by simp [findRemove] at h
  | x :: xs, rest, c, h => by
    by_cases hx : pred x
    · simp [findRemove, hx] at h
      obtain ⟨rfl, rfl⟩ := h
      exact hx
    · simp only [findRemove, hx, Bool.false_eq_true, if_false] at h
      cases e : findRemove pred xs with
      | none => rw [e] at h; exact absurd h (by simp)
      | some r =>
        obtain ⟨y, ys⟩ := r
        rw [e] at h
        simp only [Option.some.injEq, Prod.mk.injEq] at h
        obtain ⟨rfl, rfl⟩ := h
        exact findRemove_pred pred xs ys y e

theorem findRemove_of_not_mem (pred : α → Bool) :
    ∀ l : List α, (∀ x ∈ l, pred x = false) → findRemove pred l = none
  | [], _ => rfl
  | x :: xs, h => by
    have hx := h x (by simp)
    simp only [findRemove, hx, Bool.false_eq_true, if_false]
    rw [findRemove_of_not_mem pred xs (fun y hy => h y (by simp [hy]))]

theorem ids_perm {l l' : List CardType} (h : List.Perm l l') : ids l = ids l' :=
  Multiset.coe_eq_coe.mpr (h.map _)

theorem bfIds_perm {l l' : List CardOnField} (h : List.Perm l l') :
    bfIds l = bfIds l' :=
  Multiset.coe_eq_coe.mpr ((h.filter _).map _)

theorem ids_cons (c : CardType) (l : List CardType) :
    ids (c :: l) = {c.id} + ids l := by
  simp [ids, Multiset.singleton_add, Multiset.cons_coe]

theorem ids_append (l l' : List CardType) : ids (l ++ l') = ids l + ids l' := by
  simp [ids, Multiset.coe_add]

theorem bfIds_cons (c : CardOnField) (l : List CardOnField) :
    bfIds (c :: l) = (if c.isToken then 0 else {c.card.id}) + bfIds l := by
  by_cases h : c.isToken <;>
    simp [bfIds, List.filter_cons, h, Multiset.singleton_add, Multiset.cons_coe]

theorem bfIds_append (l l' : List CardOnField) :
    bfIds (l ++ l') = bfIds l + bfIds l' := by
  simp [bfIds, List.filter_append, Multiset.coe_add]

theorem zoneFindRemove_spec (z : Zone) (cid : String) (p : Player)
    (it : ZoneItem) (p1 : Player)
    (h : zoneFindRemove z cid p = some (it, p1)) :
    nonTokenIds p = itemIds it + nonTokenIds p1 := by
  cases z <;> simp only [zoneFindRemove] at h
  case hand =>
    cases e : findRemove (fun c => c.id = cid) p.hand with
    | none => rw [e] at h; exact absurd h (by simp)
    | some r =>
      rw [e] at h
      simp only [Option.map_some', Option.some.injEq, Prod.mk.injEq] at h
      obtain ⟨rfl, rfl⟩ := h
      simp only [nonTokenIds, itemIds]
      rw [(ids_perm (findRemove_perm _ _ _ _ e)).trans (ids_cons r.1 r.2)]
      abel
  case library =>
    cases e : findRemove (fun c => c.id = cid) p.library with
    | none => rw [e] at h; exact absurd h (by simp)
    | some r =>
      rw [e] at h
      simp only [Option.map_some', Option.some.injEq, Prod.mk.injEq] at h
      obtain ⟨rfl, rfl⟩ := h
      simp only [nonTokenIds, itemIds]
      rw [(ids_perm (findRemove_perm _ _ _ _ e)).trans (ids_cons r.1 r.2)]
      abel
  case graveyard =>
    cases e : findRemove (fun c => c.id = cid) p.graveyard with
    | none => rw [e] at h; exact absurd h (by simp)
    | some r =>
      rw [e] at h
      simp only [Option.map_some', Option.some.injEq, Prod.mk.injEq] at h
      obtain ⟨rfl, rfl⟩ := h
      simp only [nonTokenIds, itemIds]
      rw [(ids_perm (findRemove_perm _ _ _ _ e)).trans (ids_cons r.1 r.2)]
      abel
  case exile =>
    cases e : findRemove (fun c => c.id = cid) p.exile with
    | none => rw [e] at h; exact absurd h (by simp)
    | some r =>
      rw [e] at h
      simp only [Option.map_some', Option.some.injEq, Prod.mk.injEq] at h
      obtain ⟨rfl, rfl⟩ := h
      simp only [nonTokenIds, itemIds]
      rw [(ids_perm (findRemove_perm _ _ _ _ e)).trans (ids_cons r.1 r.2)]
      abel
  case commanderZone =>
    cases e : findRemove (fun c => c.id = cid) p.commanderZone with
    | none => rw [e] at h; exact absurd h (by simp)
    | some r =>
      rw [e] at h
      simp only [Option.map_some', Option.some.injEq, Prod.mk.injEq] at h
      obtain ⟨rfl, rfl⟩ := h
      simp only [nonTokenIds, itemIds]
      rw [(ids_perm (findRemove_perm _ _ _ _ e)).trans (ids_cons r.1 r.2)]
      abel
  case sideboard =>
    cases e : findRemove (fun c => c.id = cid) p.sideboard with
    | none => rw [e] at h; exact absurd h (by simp)
    | some r =>
      rw [e] at h
      simp only [Option.map_some', Option.some.injEq, Prod.mk.injEq] at h
      obtain ⟨rfl, rfl⟩ := h
      simp only [nonTokenIds, itemIds]
      rw [(ids_perm (findRemove_perm _ _ _ _ e)).trans (ids_cons r.1 r.2)]
      abel
  case battlefield =>
    cases e : findRemove (fun c => c.id = cid) p.battlefield with
    | none => rw [e] at h; exact absurd h (by simp)
    | some r =>
      rw [e] at h
      simp only [Option.map_some', Option.some.injEq, Prod.mk.injEq] at h
      obtain ⟨rfl, rfl⟩ := h
      simp only [nonTokenIds, itemIds]
      rw [(bfIds_perm (findRemove_perm _ _ _ _ e)).trans (bfIds_cons r.1 r.2)]
      abel

theorem ids_singleton (c : CardType) : ids [c] = {c.id} := rfl

theorem bfIds_singleton (c : CardOnField) :
    bfIds [c] = if c.isToken then 0 else {c.card.id} := by
  by_cases h : c.isToken <;> simp [bfIds, h]

theorem insertDest_spec (a : MoveArgs) (pureCardType : CardType)
    (orig : Option CardOnField) (p : Player) :
    nonTokenIds (insertDest a pureCardType orig p)
      = insContrib a pureCardType orig + nonTokenIds p := by
  obtain ⟨fz, tz, cid, ax, ay, tb⟩ := a
  cases tz
  case battlefield =>
    simp only [insertDest, insContrib, nonTokenIds, bfIds_append, bfIds_singleton]
    by_cases ht : (orig.map CardOnField.isToken).getD false <;>
      simp [ht] <;> simp only [← Multiset.singleton_add] <;> abel
  case library =>
    by_cases hb : tb.getD false <;>
      simp [insertDest, insContrib, nonTokenIds, hb, ids_append, ids_singleton,
        ids_cons] <;> (try simp only [← Multiset.singleton_add]) <;> (try abel)
  case commanderZone =>
    simp [insertDest, insContrib, nonTokenIds, ids_cons]
    try simp only [← Multiset.singleton_add]
    try abel
  case hand =>
    simp [insertDest, insContrib, nonTokenIds, ids_append, ids_singleton]
    simp only [← Multiset.singleton_add]
    abel
  case graveyard =>
    simp [insertDest, insContrib, nonTokenIds, ids_append, ids_singleton]
    simp only [← Multiset.singleton_add]
    abel
  case exile =>
    simp [insertDest, insContrib, nonTokenIds, ids_append, ids_singleton]
    simp only [← Multiset.singleton_add]
    abel
  case sideboard =>
    simp [insertDest, insContrib, nonTokenIds, ids_append, ids_singleton]
    simp only [← Multiset.singleton_add]
    abel

theorem zoneFindRemove_onField (z : Zone) (cid : String) (p : Player)
    (c : CardOnField) (p1 : Player)
    (h : zoneFindRemove z cid p = some (ZoneItem.onField c, p1)) :
    z = Zone.battlefield := by
  cases z
  case battlefield => rfl
  all_goals
    simp only [zoneFindRemove] at h
    obtain ⟨r, hros, hr⟩ := Option.map_eq_some'.mp h
    simp at hr

theorem insContrib_plain (a : MoveArgs) (c : CardType) :
    insContrib a c none = {c.id} := by
  obtain ⟨fz, tz, cid, ax, ay, tb⟩ := a
  cases tz <;> simp [insContrib]

theorem insContrib_onField_bf (a : MoveArgs) (c : CardOnField)
    (h : a.toZone = Zone.battlefield) :
    insContrib a c.card (some c) = if c.isToken then 0 else {c.card.id} := by
  obtain ⟨fz, tz, cid, ax, ay, tb⟩ := a
  cases tz <;> simp_all [insContrib]

theorem insContrib_onField_nonbf (a : MoveArgs) (c : CardOnField)
    (h : a.toZone ≠ Zone.battlefield) :
    insContrib a c.card (some c) = {c.card.id} := by
  obtain ⟨fz, tz, cid, ax, ay, tb⟩ := a
  cases tz <;> simp_all [insContrib]

theorem movePlayerCardGeneric_conserve (a : MoveArgs) (p : Player)
    (hbf : a.fromZone = Zone.battlefield → a.toZone ≠ Zone.battlefield →
      ∀ c p1, zoneFindRemove a.fromZone a.cardId p = some (ZoneItem.onField c, p1) →
        c.isToken = false) :
    nonTokenIds (movePlayerCardGeneric a p).1 = nonTokenIds p := by
  unfold movePlayerCardGeneric
  cases e : zoneFindRemove a.fromZone a.cardId p with
  | none => rfl
  | some r =>
    obtain ⟨it, p1⟩ := r
    cases it with
    | plain c =>
      dsimp only
      rw [insertDest_spec, zoneFindRemove_spec a.fromZone a.cardId p _ p1 e,
        insContrib_plain]
      simp [itemIds]
    | onField c =>
      dsimp only
      rw [insertDest_spec, zoneFindRemove_spec a.fromZone a.cardId p _ p1 e]
      congr 1
      by_cases htz : a.toZone = Zone.battlefield
      · rw [insContrib_onField_bf a c htz]
        simp [itemIds]
      · have hz : a.fromZone = Zone.battlefield :=
          zoneFindRemove_onField a.fromZone a.cardId p c p1 e
        have htok := hbf hz htz c p1 e
        rw [insContrib_onField_nonbf a c htz]
        simp [itemIds, htok]

/-- Conservation across one `moveCard` call at the player level. -/
theorem movePlayerCard_conserve (a : MoveArgs) (p : Player) :
    nonTokenIds (movePlayerCardE a p).1 = nonTokenIds p := by
  unfold movePlayerCardE
  by_cases hc : a.fromZone = Zone.battlefield ∧ a.toZone ≠ Zone.battlefield
  · rw [if_pos hc]
    cases e : findRemove (fun c => c.id = a.cardId) p.battlefield with
    | none => rfl
    | some r =>
      obtain ⟨c, rest⟩ := r
      dsimp only
      by_cases ht : c.isToken
      · rw [if_pos ht]
        simp only [nonTokenIds]
        rw [(bfIds_perm (findRemove_perm _ _ _ _ e)).trans (bfIds_cons c rest)]
        simp [ht]
      · rw [if_neg ht]
        apply movePlayerCardGeneric_conserve
        intro h1 _ c' p1 hz
        rw [h1] at hz
        simp only [zoneFindRemove, e, Option.map_some', Option.some.injEq,
          Prod.mk.injEq, ZoneItem.onField.injEq] at hz
        obtain ⟨hc', _⟩ := hz
        cases hc'
        simpa using ht
  · rw [if_neg hc]
    apply movePlayerCardGeneric_conserve
    intro h1 h2
    exact absurd ⟨h1, h2⟩ hc

/-! ### The Fisher–Yates shuffle is a permutation -/

theorem coe_cons_ms (x : α) (t : List α) :
    ((x :: t : List α) : Multiset α) = {x} + (t : Multiset α) := by
  rw [← Multiset.cons_coe, ← Multiset.singleton_add]

theorem coe_set_add : ∀ (l : List α) (n : Nat) (b : α) (h : n < l.length),
    ((l.set n b : List α) : Multiset α) + {l.get ⟨n, h⟩}
      = (l : Multiset α) + {b}
  | [], n, _, h => absurd h (by simp)
  | x :: xs, 0, b, _ => by
    show ((b :: xs : List α) : Multiset α) + {x}
      = ((x :: xs : List α) : Multiset α) + {b}
    rw [coe_cons_ms, coe_cons_ms]
    abel
  | x :: xs, Nat.succ n, b, h => by
    show ((x :: xs.set n b : List α) : Multiset α)
        + {xs.get ⟨n, Nat.lt_of_succ_lt_succ h⟩}
      = ((x :: xs : List α) : Multiset α) + {b}
    rw [coe_cons_ms, coe_cons_ms, add_assoc,
      coe_set_add xs n b (Nat.lt_of_succ_lt_succ h), add_assoc]

theorem coe_swapIdx (l : List α) (i j : Nat) :
    ((swapIdx l i j : List α) : Multiset α) = (l : Multiset α) := by
  unfold swapIdx
  cases hi : l[i]? with
  | none => rfl
  | some a =>
    cases hj : l[j]? with
    | none => rfl
    | some b =>
      have hil : i < l.length := (List.getElem?_eq_some.mp hi).1
      have hjl : j < l.length := (List.getElem?_eq_some.mp hj).1
      have hga : l.get ⟨i, hil⟩ = a := by
        simp only [List.get_eq_getElem]
        simpa [List.getElem?_eq_getElem hil] using hi
      have hgb : l.get ⟨j, hjl⟩ = b := by
        simp only [List.get_eq_getElem]
        simpa [List.getElem?_eq_getElem hjl] using hj
      have hjl2 : j < (l.set i b).length := by simpa using hjl
      have h2 : (l.set i b).get ⟨j, hjl2⟩ = b := by
        by_cases hij : i = j
        · subst hij
          simp only [List.get_eq_getElem]
          exact List.getElem_set_self _
        · simp only [List.get_eq_getElem]
          rw [List.getElem_set_ne hij _]
          simp only [List.get_eq_getElem] at hgb
          exact hgb
      have e1 := coe_set_add (l.set i b) j a hjl2
      have e2 := coe_set_add l i b hil
      rw [h2] at e1
      rw [hga] at e2
      exact add_right_cancel (e1.trans e2)

theorem coe_fyLoop (rand : Nat → Nat) :
    ∀ (k : Nat) (l : List α),
      ((fyLoop rand k l : List α) : Multiset α) = (l : Multiset α)
  | 0, _ => rfl
  | Nat.succ k, l => by
    rw [fyLoop, coe_fyLoop rand k, coe_swapIdx]

/-- The embedded `shuffle` preserves the multiset of its input. -/
theorem coe_shuffle (rand : Nat → Nat) (l : List α) :
    ((shuffle rand l : List α) : Multiset α) = (l : Multiset α) :=
  coe_fyLoop rand (l.length - 1) l

/-- The embedded `shuffle` returns a permutation of its input. -/
theorem shuffle_perm (rand : Nat → Nat) (l : List α) :
    List.Perm (shuffle rand l) l :=
  Multiset.coe_eq_coe.mp (coe_shuffle rand l)

theorem ids_shuffle (rand : Nat → Nat) (l : List CardType) :
    ids (shuffle rand l) = ids l :=
  ids_perm (shuffle_perm rand l)

/-! ### Frame lemmas for the per-player `moveCard` -/

/-- The non-zone fields of a player are untouched by the source-zone
removal step. -/
theorem zoneFindRemove_frameProj (z : Zone) (cid : String) (p : Player)
    (it : ZoneItem) (p1 : Player)
    (h : zoneFindRemove z cid p = some (it, p1)) :
    frameProj p1 = frameProj p := by
  cases z <;>
    · simp only [zoneFindRemove] at h
      obtain ⟨r, _, heq⟩ := Option.map_eq_some'.mp h
      obtain ⟨-, rfl⟩ := Prod.mk.injEq .. ▸ heq
      rfl

/-- The non-zone fields of a player are untouched by the destination
insertion step. -/
theorem insertDest_frameProj (a : MoveArgs) (c : CardType)
    (orig : Option CardOnField) (p : Player) :
    frameProj (insertDest a c orig p) = frameProj p := by
  obtain ⟨fz, tz, cid, ax, ay, tb⟩ := a
  cases tz <;> simp [insertDest, frameProj] <;>
    by_cases hb : tb.getD false <;> simp [hb]

/-- A `moveCard` call touches only the seven zone containers of the player:
id, name, online flag, life, initial deck and sideboard, commander list,
mana pool and player counters are all unchanged, on every path. -/
theorem movePlayerCard_frameProj (a : MoveArgs) (p : Player) :
    frameProj (movePlayerCardE a p).1 = frameProj p := by
  have hgen : ∀ q : Player,
      frameProj (movePlayerCardGeneric a q).1 = frameProj q := by
    intro q
    unfold movePlayerCardGeneric
    cases e : zoneFindRemove a.fromZone a.cardId q with
    | none => rfl
    | some r =>
      obtain ⟨it, p1⟩ := r
      have h1 := zoneFindRemove_frameProj a.fromZone a.cardId q it p1 e
      cases it with
      | plain c =>
        dsimp only
        exact (insertDest_frameProj a c none p1).trans h1
      | onField c =>
        dsimp only
        exact (insertDest_frameProj a c.card (some c) p1).trans h1
  unfold movePlayerCardE
  by_cases hc : a.fromZone = Zone.battlefield ∧ a.toZone ≠ Zone.battlefield
  · rw [if_pos hc]
    cases e : findRemove (fun c => c.id = a.cardId) p.battlefield with
    | none => rfl
    | some r =>
      obtain ⟨c, rest⟩ := r
      dsimp only
      by_cases ht : c.isToken
      · rw [if_pos ht]
        rfl
      · rw [if_neg ht]
        exact hgen p
  · rw [if_neg hc]
    exact hgen p

/-! ### Intervening player operations (moves, draws, discards, shuffles) -/

theorem drawN_reset_frame : ∀ (n : Nat) (p : Player),
    (drawN n p).initialDeck = p.initialDeck ∧
      (drawN n p).initialSideboard = p.initialSideboard ∧
      (drawN n p).commanders = p.commanders ∧
      (drawN n p).battlefield = p.battlefield ∧
      (drawN n p).graveyard = p.graveyard ∧
      (drawN n p).exile = p.exile ∧
      (drawN n p).commanderZone = p.commanderZone ∧
      (drawN n p).life = p.life
  | 0, _ => ⟨rfl, rfl, rfl, rfl, rfl, rfl, rfl, rfl⟩
  | Nat.succ n, p => by
    rw [drawN]
    cases p.library with
    | nil => exact ⟨rfl, rfl, rfl, rfl, rfl, rfl, rfl, rfl⟩
    | cons c rest => exact drawN_reset_frame n _

/-- Intervening operations never touch `initialDeck`, `initialSideboard`
or the designated commander list. -/
theorem applyOp_preserves (op : PlayerOp) (p : Player) :
    (applyOp op p).initialDeck = p.initialDeck ∧
      (applyOp op p).initialSideboard = p.initialSideboard ∧
      (applyOp op p).commanders = p.commanders := by
  cases op with
  | move a =>
    have h := movePlayerCard_frameProj a p
    exact ⟨congrArg (fun t => t.2.2.2.2.1) h, congrArg (fun t => t.2.2.2.2.2.1) h,
      congrArg (fun t => t.2.2.2.2.2.2.1) h⟩
  | draw n =>
    have h := drawN_reset_frame n p
    exact ⟨h.1, h.2.1, h.2.2.1⟩
  | discardRandom r =>
    simp only [applyOp]
    unfold discardRandomP
    by_cases h : p.hand.length = 0
    · simp [h]
    · rw [if_neg h]
      dsimp only
      split <;> exact ⟨rfl, rfl, rfl⟩
  | shuffleLib rand => exact ⟨rfl, rfl, rfl⟩

theorem applyOps_preserves (l : List PlayerOp) (p : Player) :
    (applyOps l p).initialDeck = p.initialDeck ∧
      (applyOps l p).initialSideboard = p.initialSideboard ∧
      (applyOps l p).commanders = p.commanders := by
  induction l generalizing p with
  | nil => exact ⟨rfl, rfl, rfl⟩
  | cons op t ih =>
    have h1 := applyOp_preserves op p
    have h2 := ih (applyOp op p)
    exact ⟨h2.1.trans h1.1, h2.2.1.trans h1.2.1, h2.2.2.trans h1.2.2⟩

/-- C1: for every player and every sequence of `moveCard` zone-transfer
operations, the multiset of non-token card ids across library, hand,
battlefield base cards, graveyard, exile, commanderZone and sideboard is
unchanged by each operation — no non-token card is duplicated or dropped. -/
theorem claim_C1_conservation (ops : List MoveArgs) (p : Player) :
    nonTokenIds (applyMoves ops p) = nonTokenIds p := by
  induction ops generalizing p with
  | nil => rfl
  | cons a t ih =>
    have : applyMoves (a :: t) p = applyMoves t (movePlayerCardE a p).1 := rfl
    rw [this, ih]
    exact movePlayerCard_conserve a p

/-! ### Lookup/update lemmas for the session player list -/

theorem updateFirstE_found (pred : α → Bool) (f : α → α × List Emit) :
    ∀ (l : List α) (q : α), l.find? pred = some q →
      updateFirstE pred f l
        = some (updateFirstP pred (fun x => (f x).1) l, (f q).2)
  | [], q, h => by simp at h
  | x :: xs, q, h => by
    by_cases hx : pred x
    · rw [List.find?_cons_of_pos _ hx] at h
      injection h with h
      subst h
      simp [updateFirstE, updateFirstP, hx]
    · rw [List.find?_cons_of_neg _ hx] at h
      simp only [updateFirstE, updateFirstP, hx, Bool.false_eq_true, if_false]
      rw [updateFirstE_found pred f xs q h]

theorem updateFirstP_of_found (pred : α → Bool) (f : α → α) :
    ∀ (l : List α) (q : α), l.find? pred = some q → f q = q →
      updateFirstP pred f l = l
  | [], q, h, _ => by simp at h
  | x :: xs, q, h, hf => by
    by_cases hx : pred x
    · rw [List.find?_cons_of_pos _ hx] at h
      injection h with h
      subst h
      simp [updateFirstP, hx, hf]
    · rw [List.find?_cons_of_neg _ hx] at h
      simp only [updateFirstP, hx, Bool.false_eq_true, if_false]
      rw [updateFirstP_of_found pred f xs q h hf]

theorem updateFirstP_length (pred : α → Bool) (f : α → α) :
    ∀ l : List α, (updateFirstP pred f l).length = l.length
  | [] => rfl
  | x :: xs => by
    by_cases hx : pred x <;>
      simp [updateFirstP, hx, updateFirstP_length pred f xs]

theorem updateFirstE_forall₂ (pred : α → Bool) (f : α → α × List Emit)
    (R : α → α → Prop) (hkeep : ∀ x, R x x)
    (hupd : ∀ x, pred x = true → R x (f x).1) :
    ∀ (l l' : List α) (em : List Emit),
      updateFirstE pred f l = some (l', em) → List.Forall₂ R l l'
  | [], _, _, h => by simp [updateFirstE] at h
  | x :: xs, l', em, h => by
    by_cases hx : pred x
    · simp only [updateFirstE, hx, if_true] at h
      obtain ⟨rfl, -⟩ := Prod.mk.injEq .. ▸ Option.some.inj h
      exact List.Forall₂.cons (hupd x hx)
        (List.forall₂_same.mpr fun y _ => hkeep y)
    · simp only [updateFirstE, hx, Bool.false_eq_true, if_false] at h
      cases e : updateFirstE pred f xs with
      | none => rw [e] at h; exact absurd h (by simp)
      | some r =>
        obtain ⟨ys, em2⟩ := r
        rw [e] at h
        obtain ⟨rfl, -⟩ := Prod.mk.injEq .. ▸ Option.some.inj h
        exact List.Forall₂.cons (hkeep x)
          (updateFirstE_forall₂ pred f R hkeep hupd xs ys em2 e)

/-- Missing card: the source-zone lookup of `moveCard` finds nothing. -/
theorem zoneFindRemove_none (z : Zone) (cid : String) (p : Player)
    (h : cid ∉ zoneIdList p z) : zoneFindRemove z cid p = none := by
  cases z <;>
    · simp only [zoneIdList] at h
      simp only [zoneFindRemove]
      rw [findRemove_of_not_mem]
      · rfl
      · intro x hx
        refine decide_eq_false ?_
        intro he
        exact h (List.mem_map.mpr ⟨x, hx, he⟩)

/-- When the requested card id is absent from the source zone, `moveCard`
leaves the player untouched; it broadcasts the unchanged state except on
the battlefield-to-elsewhere path, which returns silently. -/
theorem movePlayerCardE_notFound (a : MoveArgs) (p : Player)
    (h : a.cardId ∉ zoneIdList p a.fromZone) :
    movePlayerCardE a p
      = (p, if a.fromZone = Zone.battlefield ∧ a.toZone ≠ Zone.battlefield
          then [] else [Emit.updateState]) := by
  have hz := zoneFindRemove_none a.fromZone a.cardId p h
  unfold movePlayerCardE
  by_cases hc : a.fromZone = Zone.battlefield ∧ a.toZone ≠ Zone.battlefield
  · simp only [if_pos hc]
    have hb : findRemove (fun c => c.id = a.cardId) p.battlefield = none := by
      have h2 := hz
      rw [hc.1] at h2
      simpa [zoneFindRemove, Option.map_eq_none'] using h2
    rw [hb]
  · simp only [if_neg hc]
    unfold movePlayerCardGeneric
    rw [hz]

/-! ### Claims C2, C3, C8, C9, C10 -/

/-- C2 (counterexample): a `moveCard` naming a card id absent from the
battlefield, with a non-battlefield destination, leaves the session
unchanged but emits NO `updateState` broadcast — refuting the claim that a
stale `moveCard` always results in a broadcast. -/
theorem claim_C2_counterexample :
    (moveCardE argsC2 "p1" sessC2).1 = sessC2 ∧
      Emit.updateState ∉ (moveCardE argsC2 "p1" sessC2).2 := by
  decide

/-- C2 (amended): calling `moveCard` with a `cardId` not present in the
`from` zone of the addressed player does not throw (the embedding is a
total function), leaves the whole session state unchanged, and emits a
fresh `updateState` broadcast — except when `from` is the battlefield and
`to` is a different zone, where the handler returns silently with no
broadcast at all. -/
theorem claim_C2_staleMove (a : MoveArgs) (pid : String) (s : Session)
    (q : Player) (hq : s.players.find? (fun p => p.id = pid) = some q)
    (habs : a.cardId ∉ zoneIdList q a.fromZone) :
    moveCardE a pid s
      = (s, if a.fromZone = Zone.battlefield ∧ a.toZone ≠ Zone.battlefield
          then [] else [Emit.updateState]) := by
  unfold moveCardE
  rw [updateFirstE_found _ _ s.players q hq]
  have hid : (movePlayerCardE a q).1 = q := by
    rw [movePlayerCardE_notFound a q habs]
  rw [updateFirstP_of_found _ _ s.players q hq hid,
    movePlayerCardE_notFound a q habs]

/-- C2 (witness): the amended statement at a concrete stale request. -/
theorem claim_C2_witness : moveCardE argsC2 "p1" sessC2 = (sessC2, []) := by
  have h := claim_C2_staleMove argsC2 "p1" sessC2 (mkPlayer "p1" "Ann")
    (by decide) (by decide)
  simpa using h

/-- C3: evaluated at a concrete two-player session with the player at
index 0 active, `nextTurn` untaps that player's battlefield, draws one
card and increments the turn counter as claimed, but then computes
`nextPlayerIndex = currentPlayerIndex % players.length` (the source's
comment says "+1" yet no `+1` is applied), so the active player remains
the invoker at index 0 instead of advancing to index 1. -/
theorem claim_C3_nextTurn_eval :
    (nextTurn "p0" sessC3).turn = 2 ∧
      (nextTurn "p0" sessC3).activePlayer = "p0" ∧
      (nextTurn "p0" sessC3).players.map Player.hand = [[mkCard "c1"], []] ∧
      (nextTurn "p0" sessC3).players.map
        (fun p => p.battlefield.map CardOnField.rotation) = [[0], []] := by
  decide

/-- C8 (counterexample): when the last online player to disconnect is not
the active player, every player ends up offline yet the active-player
pointer and turn counter are NOT cleared — refuting the claim that the
all-offline condition alone triggers the reset. -/
theorem claim_C8_counterexample :
    ((disconnectSession "b" sessC8).players.all
        (fun p => p.isOnline = false)) = true ∧
      (disconnectSession "b" sessC8).activePlayer = "a" ∧
      (disconnectSession "b" sessC8).turn = 3 := by
  decide

/-- C8 (amended): processing a transport disconnect marks the player
offline but keeps them in the player list; the active-player pointer is
cleared and the turn zeroed only when, in addition to every player being
offline, the disconnecting player held the active-player pointer —
otherwise both are left unchanged. -/
theorem claim_C8_disconnect (s : Session) (sid : String)
    (hfound : (s.players.find? (fun p => p.id = sid)).isSome = true) :
    (disconnectSession sid s).players
        = updateFirstP (fun p => p.id = sid)
            (fun p => { p with isOnline := false }) s.players ∧
      (disconnectSession sid s).players.length = s.players.length ∧
      (disconnectSession sid s).code = s.code ∧
      (disconnectSession sid s).sessionType = s.sessionType ∧
      ((s.activePlayer = sid ∧ (updateFirstP (fun p => p.id = sid)
            (fun p => { p with isOnline := false }) s.players).all
            (fun p => p.isOnline = false) = true) →
        (disconnectSession sid s).activePlayer = "" ∧
          (disconnectSession sid s).turn = 0) ∧
      (¬(s.activePlayer = sid ∧ (updateFirstP (fun p => p.id = sid)
            (fun p => { p with isOnline := false }) s.players).all
            (fun p => p.isOnline = false) = true) →
        (disconnectSession sid s).activePlayer = s.activePlayer ∧
          (disconnectSession sid s).turn = s.turn) := by
  obtain ⟨q, hq⟩ := Option.isSome_iff_exists.mp hfound
  unfold disconnectSession
  rw [hq]
  dsimp only
  by_cases hcond : s.activePlayer = sid ∧ (updateFirstP (fun p => p.id = sid)
      (fun p => { p with isOnline := false }) s.players).all
      (fun p => p.isOnline = false) = true
  · rw [if_pos hcond]
    exact ⟨rfl, updateFirstP_length _ _ _, rfl, rfl, fun _ => ⟨rfl, rfl⟩,
      fun hn => absurd hcond hn⟩
  · rw [if_neg hcond]
    exact ⟨rfl, updateFirstP_length _ _ _, rfl, rfl, fun hcl => absurd hcl hcond,
      fun _ => ⟨rfl, rfl⟩⟩

/-- C8 (witness): the amended statement at the concrete session. -/
theorem claim_C8_witness :
    (disconnectSession "b" sessC8).turn = 3 ∧
      (disconnectSession "b" sessC8).players.length = 2 := by
  have h := claim_C8_disconnect sessC8 "b" (by decide)
  exact ⟨(h.2.2.2.2.2 (by decide)).2, h.2.1.trans (by decide)⟩

/-- C9: `disconnectPlayer` removes a player exactly when the requested
`playerId` equals the requester's own transport id and that player is in
the session; on an id mismatch the session is left completely unchanged
and only an error is unicast, so one client can never evict another. -/
theorem claim_C9_disconnectPlayer (s : Session) (sid pid : String) :
    (pid ≠ sid → disconnectPlayerE sid pid s = (s, [Emit.errorMsg])) ∧
      (pid = sid → findRemove (fun p => p.id = pid) s.players = none →
        (disconnectPlayerE sid pid s).1 = s) ∧
      (pid = sid → ∀ (q : Player) (rest : List Player),
        findRemove (fun p => p.id = pid) s.players = some (q, rest) →
          (disconnectPlayerE sid pid s).1.players = rest ∧
            (disconnectPlayerE sid pid s).2 = [Emit.updateState]) := by
  refine ⟨?_, ?_, ?_⟩
  · intro h
    unfold disconnectPlayerE
    rw [if_pos h]
  · intro h he
    unfold disconnectPlayerE
    rw [if_neg (fun hn => hn h), he]
  · intro h q rest he
    unfold disconnectPlayerE
    rw [if_neg (fun hn => hn h), he]
    dsimp only
    by_cases hap : s.activePlayer = pid
    · rw [if_pos hap]
      cases rest <;> exact ⟨rfl, rfl⟩
    · rw [if_neg hap]
      exact ⟨rfl, rfl⟩

/-- C9 (witness): a self-removal empties the concrete session; a foreign
removal attempt changes nothing and produces only an error. -/
theorem claim_C9_witness :
    (disconnectPlayerE "p1" "p1" sessC2).1.players = [] ∧
      disconnectPlayerE "other" "p1" sessC2 = (sessC2, [Emit.errorMsg]) := by
  have h1 := claim_C9_disconnectPlayer sessC2 "p1" "p1"
  have h2 := claim_C9_disconnectPlayer sessC2 "other" "p1"
  exact ⟨(h1.2.2 rfl (mkPlayer "p1" "Ann") [] (by decide)).1, h2.1 (by decide)⟩

/-- C10: a `moveCard` naming player `pid` leaves the session's turn
counter, active-player pointer, session type and code unchanged, leaves
every player whose id differs from `pid` entirely unchanged, and changes
only zone containers even on the addressed player — on the success path
and every error path alike. -/
theorem claim_C10_moveCard_frame (a : MoveArgs) (pid : String) (s : Session) :
    (moveCardE a pid s).1.turn = s.turn ∧
      (moveCardE a pid s).1.activePlayer = s.activePlayer ∧
      (moveCardE a pid s).1.sessionType = s.sessionType ∧
      (moveCardE a pid s).1.code = s.code ∧
      List.Forall₂
        (fun q q' => (q.id ≠ pid → q' = q) ∧ frameProj q' = frameProj q)
        s.players (moveCardE a pid s).1.players := by
  unfold moveCardE
  cases e : updateFirstE (fun p => p.id = pid) (movePlayerCardE a) s.players with
  | none =>
    exact ⟨rfl, rfl, rfl, rfl,
      List.forall₂_same.mpr fun q _ => ⟨fun _ => rfl, rfl⟩⟩
  | some r =>
    obtain ⟨players1, em⟩ := r
    refine ⟨rfl, rfl, rfl, rfl, ?_⟩
    exact updateFirstE_forall₂ _ _ _ (fun x => ⟨fun _ => rfl, rfl⟩)
      (fun x hx => ⟨fun hne => absurd (of_decide_eq_true hx) hne,
        movePlayerCard_frameProj a x⟩) s.players players1 em e

/-- C10 (witness): the frame property at a concrete session. -/
theorem claim_C10_witness : (moveCardE argsC2 "nobody" sessC3).1.turn = 1 := by
  have h := (claim_C10_moveCard_frame argsC2 "nobody" sessC3).1
  exact h.trans rfl

/-! ### Claims C4 and C6 -/

/-- C4: a token on the battlefield, moved by `moveCard` to any other zone,
is removed from the battlefield and inserted nowhere: afterwards its id is
absent from every zone of the player.  The hypotheses state the normal
id-uniqueness of the data model: the token is the only battlefield entry
with its id and the id occurs in no other zone. -/
theorem claim_C4_token (a : MoveArgs) (p : Player) (c : CardOnField)
    (rest : List CardOnField)
    (hfrom : a.fromZone = Zone.battlefield) (hto : a.toZone ≠ Zone.battlefield)
    (hfr : findRemove (fun d => d.id = a.cardId) p.battlefield = some (c, rest))
    (htok : c.isToken = true)
    (hrest : ∀ d ∈ rest, ¬d.id = a.cardId)
    (hzones : ∀ z : Zone, z ≠ Zone.battlefield → a.cardId ∉ zoneIdList p z) :
    (movePlayerCardE a p).1 = { p with battlefield := rest } ∧
      ∀ z : Zone, a.cardId ∉ zoneIdList (movePlayerCardE a p).1 z := by
  have hmain : movePlayerCardE a p
      = ({ p with battlefield := rest }, [Emit.updateState]) := by
    unfold movePlayerCardE
    rw [if_pos ⟨hfrom, hto⟩, hfr]
    dsimp only
    rw [if_pos htok]
  refine ⟨by rw [hmain], ?_⟩
  intro z
  rw [hmain]
  cases z with
  | battlefield =>
    simp only [zoneIdList]
    intro hmem
    obtain ⟨d, hd, hid⟩ := List.mem_map.mp hmem
    exact hrest d hd hid
  | hand => exact hzones Zone.hand (by decide)
  | library => exact hzones Zone.library (by decide)
  | graveyard => exact hzones Zone.graveyard (by decide)
  | exile => exact hzones Zone.exile (by decide)
  | commanderZone => exact hzones Zone.commanderZone (by decide)
  | sideboard => exact hzones Zone.sideboard (by decide)

/-- C4 (witness): the concrete token is gone from the battlefield and from
every other zone after the move. -/
theorem claim_C4_witness :
    (movePlayerCardE argsC4 playerC4).1.battlefield = [] ∧
      (movePlayerCardE argsC4 playerC4).1.graveyard = [] := by
  have h := claim_C4_token argsC4 playerC4 (mkCof "t1" (mkCard "t1") true) []
    rfl (by decide) (by decide) rfl (by intro d hd; cases hd)
    (by
      intro z hz
      cases z <;> first
        | exact absurd rfl hz
        | simp [zoneIdList, playerC4, mkPlayer, dfltPlayer])
  refine ⟨?_, ?_⟩
  · rw [h.1]
  · rw [h.1]
    rfl

/-! ### Claim C6: flipping a double-faced card -/

theorem flipFields_flipFields (c : CardType) : flipFields (flipFields c) = c := rfl

theorem find?_updateFirstP (pred : α → Bool) (g : α → α)
    (hpres : ∀ x, pred (g x) = pred x) :
    ∀ l : List α, (updateFirstP pred g l).find? pred = (l.find? pred).map g
  | [] => rfl
  | x :: xs => by
    by_cases hx : pred x
    · simp only [updateFirstP, hx, if_true]
      rw [List.find?_cons_of_pos _ (by rw [hpres]; exact hx),
        List.find?_cons_of_pos _ hx]
      rfl
    · simp only [updateFirstP, hx, Bool.false_eq_true, if_false]
      rw [List.find?_cons_of_neg _ hx, List.find?_cons_of_neg _ hx]
      exact find?_updateFirstP pred g hpres xs

theorem updateFirstP_comp (pred : α → Bool) (f g : α → α)
    (hpres : ∀ x, pred (f x) = pred x) :
    ∀ l : List α,
      updateFirstP pred g (updateFirstP pred f l)
        = updateFirstP pred (fun x => g (f x)) l
  | [] => rfl
  | x :: xs => by
    by_cases hx : pred x
    · simp only [updateFirstP, hx, hpres x, if_true]
    · simp only [updateFirstP, hx, Bool.false_eq_true, if_false]
      rw [updateFirstP_comp pred f g hpres xs]

theorem updateFirstP_id (pred : α → Bool) (h : α → α) (hid : ∀ x, h x = x) :
    ∀ l : List α, updateFirstP pred h l = l
  | [] => rfl
  | x :: xs => by
    by_cases hx : pred x <;>
      simp [updateFirstP, hx, hid x, updateFirstP_id pred h hid xs]

/-- C6: for a battlefield card whose underlying card has a second face,
one `flipCard` swaps every paired front/second-face field (name, image,
mana cost, type line, base power, base toughness, loyalty) and toggles
`isFlipped`; applying `flipCard` twice restores the player — in particular
every face field and the `isFlipped` flag — exactly. -/
theorem flipEntry_flipEntry (d : CardOnField) : flipEntry (flipEntry d) = d := by
  simp [flipEntry, flipFields_flipFields]

theorem claim_C6_flip (cid : String) (p : Player) (c : CardOnField)
    (hfind : p.battlefield.find? (fun d => d.id = cid) = some c)
    (hdfc : c.card.hasSecondFace = true) :
    (flipCardP cid (flipCardP cid p).1).1 = p ∧
      (flipCardP cid p).1.battlefield.find? (fun d => d.id = cid)
        = some (flipEntry c) ∧
      (flipEntry c).isFlipped = !c.isFlipped ∧
      (flipFields c.card).name = c.card.secondFaceName ∧
      (flipFields c.card).image = c.card.secondFaceImage ∧
      (flipFields c.card).mana_cost = c.card.secondFaceManaCost ∧
      (flipFields c.card).type_line = c.card.secondFaceTypeLine ∧
      (flipFields c.card).basePower = c.card.secondFaceBasePower ∧
      (flipFields c.card).baseToughness = c.card.secondFaceBaseToughness ∧
      (flipFields c.card).loyalty = c.card.secondFaceLoyalty ∧
      (flipFields c.card).secondFaceName = c.card.name ∧
      (flipFields c.card).secondFaceImage = c.card.image ∧
      (flipFields c.card).secondFaceManaCost = c.card.mana_cost ∧
      (flipFields c.card).secondFaceTypeLine = c.card.type_line ∧
      (flipFields c.card).secondFaceBasePower = c.card.basePower ∧
      (flipFields c.card).secondFaceBaseToughness = c.card.baseToughness ∧
      (flipFields c.card).secondFaceLoyalty = c.card.loyalty := by
  have h1 : flipCardP cid p
      = ({ p with battlefield := updateFirstP (fun d => d.id = cid) flipEntry p.battlefield },
          [Emit.updateState]) := by
    unfold flipCardP
    rw [hfind]
    dsimp only
    rw [if_pos hdfc]
  have hfind2 : (flipCardP cid p).1.battlefield.find? (fun d => d.id = cid)
      = some (flipEntry c) := by
    rw [h1]
    dsimp only
    rw [find?_updateFirstP (fun d : CardOnField => d.id = cid) flipEntry
      (fun x => rfl) p.battlefield, hfind]
    rfl
  refine ⟨?_, hfind2, rfl, rfl, rfl, rfl, rfl, rfl, rfl, rfl, rfl, rfl, rfl,
    rfl, rfl, rfl, rfl⟩
  rw [show (flipCardP cid p).1
      = { p with battlefield := updateFirstP (fun d => d.id = cid) flipEntry p.battlefield }
    from by rw [h1]]
  unfold flipCardP
  dsimp only
  rw [find?_updateFirstP (fun d : CardOnField => d.id = cid) flipEntry
      (fun x => rfl) p.battlefield, hfind]
  dsimp only [Option.map_some']
  rw [if_pos (show (flipEntry c).card.hasSecondFace = true from hdfc)]
  dsimp only
  rw [updateFirstP_comp (fun d : CardOnField => d.id = cid) flipEntry flipEntry
    (fun x => rfl) p.battlefield,
    updateFirstP_id _ _ flipEntry_flipEntry p.battlefield]

/-- C6 (witness): flipping the concrete double-faced card twice restores
the player, and one flip shows the back face name. -/
theorem claim_C6_witness :
    (flipCardP "d1" (flipCardP "d1" playerC6).1).1 = playerC6 ∧
      (flipCardP "d1" playerC6).1.battlefield.map
        (fun d => d.card.name) = [some "d1-back"] := by
  have h := claim_C6_flip "d1" playerC6 (mkCof "d1" (mkDfc "d1") false)
    (by decide) rfl
  refine ⟨h.1, ?_⟩
  have h2 := h.2.1
  decide

/-! ### Claim C5: resetPlayer restores from initialDeck -/

theorem findRemove_none_mem (pred : α → Bool) :
    ∀ l : List α, findRemove pred l = none → ∀ x ∈ l, pred x = false
  | [], _, x, hx => absurd hx (by simp)
  | y :: ys, h, x, hx => by
    by_cases hy : pred y
    · simp [findRemove, hy] at h
    · simp only [findRemove, hy, Bool.false_eq_true, if_false] at h
      cases e : findRemove pred ys with
      | none =>
        rcases List.mem_cons.mp hx with rfl | hx2
        · exact Bool.eq_false_iff.mpr hy
        · exact findRemove_none_mem pred ys e x hx2
      | some r =>
        rw [e] at h
        exact absurd h (by simp)

theorem removeFirstById_cons (c : CardType) (t : List CardType) (i : String) :
    removeFirstById (c :: t) i
      = if c.id = i then t else c :: removeFirstById t i := by
  by_cases hc : c.id = i
  · simp [removeFirstById, findRemove, hc]
  · cases e : findRemove (fun d => d.id = i) t with
    | none => simp [removeFirstById, findRemove, hc, e]
    | some r => simp [removeFirstById, findRemove, hc, e]

theorem ids_cons_m (c : CardType) (l : List CardType) :
    ids (c :: l) = c.id ::ₘ ids l := by
  rw [ids_cons, Multiset.singleton_add]

theorem ids_removeFirstById (l : List CardType) (i : String) :
    ids (removeFirstById l i) = (ids l).erase i := by
  induction l with
  | nil => simp [removeFirstById, findRemove, ids]
  | cons c t ih =>
    rw [removeFirstById_cons]
    by_cases hc : c.id = i
    · rw [if_pos hc, ids_cons_m, hc, Multiset.erase_cons_head]
    · rw [if_neg hc, ids_cons_m, ids_cons_m, Multiset.erase_cons_tail, ih]
      exact hc

theorem ids_foldl_remove (cs : List CardType) (l : List CardType) :
    ids (cs.foldl (fun d c => removeFirstById d c.id) l) = ids l - ids cs := by
  induction cs generalizing l with
  | nil => simp [ids]
  | cons c t ih =>
    rw [List.foldl_cons, ih, ids_removeFirstById, ids_cons_m, Multiset.sub_cons]

theorem drawN_ids (n : Nat) : ∀ p : Player,
    ids (drawN n p).library + ids (drawN n p).hand
      = ids p.library + ids p.hand := by
  induction n with
  | zero => intro p; rfl
  | succ n ih =>
    intro p
    obtain ⟨pid, pname, pon, plife, pinit, pinitsb, plib, phand, pbf, pgy,
      pex, pcz, pcmd, psb, pmp, pct⟩ := p
    cases plib with
    | nil => rfl
    | cons c rest =>
      simp only [drawN]
      rw [ih]
      dsimp only
      simp only [ids_append, ids_cons_m]
      simp only [show ids ([] : List CardType) = 0 from rfl,
        ← Multiset.singleton_add]
      abel

theorem drawN_hand_len (n : Nat) : ∀ p : Player,
    (drawN n p).hand.length = p.hand.length + min n p.library.length := by
  induction n with
  | zero => intro p; simp [drawN]
  | succ n ih =>
    intro p
    obtain ⟨pid, pname, pon, plife, pinit, pinitsb, plib, phand, pbf, pgy,
      pex, pcz, pcmd, psb, pmp, pct⟩ := p
    cases plib with
    | nil => simp [drawN]
    | cons c rest =>
      simp only [drawN]
      rw [ih]
      dsimp only
      simp only [List.length_append, List.length_cons, List.length_nil,
        Nat.succ_min_succ]
      omega

/-- Reset restores the source of truth: library ∪ hand is `initialDeck`
minus the designated commanders, the commanders are reseated in the
commander zone (commander sessions), and battlefield, graveyard and exile
are emptied.  Holds for any starting zone contents. -/
theorem resetPlayerP_spec (rand : Nat → Nat) (st : SessionType) (p : Player)
    (hstd : st = SessionType.standard → p.commanders.getD [] = []) :
    ids (resetPlayerP rand st p).library + ids (resetPlayerP rand st p).hand
        = ids p.initialDeck - ids (p.commanders.getD []) ∧
      (resetPlayerP rand st p).commanderZone
        = (if st = SessionType.commander then p.commanders.getD [] else []) ∧
      (resetPlayerP rand st p).battlefield = [] ∧
      (resetPlayerP rand st p).graveyard = [] ∧
      (resetPlayerP rand st p).exile = [] := by
  unfold resetPlayerP
  by_cases hc : st = SessionType.commander ∧ p.commanders.getD [] ≠ []
  · rw [if_pos hc]
    have hfr := drawN_reset_frame 7
    refine ⟨?_, ?_, ?_, ?_, ?_⟩
    · rw [drawN_ids 7]
      dsimp only
      rw [ids_shuffle, ids_foldl_remove]
      simp [ids]
    · rw [(hfr _).2.2.2.2.2.2.1]
      conv_rhs => rw [if_pos hc.1]
    · exact (hfr _).2.2.2.1
    · exact (hfr _).2.2.2.2.1
    · exact (hfr _).2.2.2.2.2.1
  · rw [if_neg hc]
    have hfr := drawN_reset_frame 7
    have hcm : p.commanders.getD [] = [] := by
      cases st with
      | standard => exact hstd rfl
      | commander =>
        by_contra hne
        exact hc ⟨rfl, hne⟩
    refine ⟨?_, ?_, ?_, ?_, ?_⟩
    · rw [drawN_ids 7]
      dsimp only
      rw [ids_shuffle, hcm]
      simp [ids]
    · rw [(hfr _).2.2.2.2.2.2.1]
      cases st with
      | standard => simp
      | commander => simp [hcm]
    · exact (hfr _).2.2.2.1
    · exact (hfr _).2.2.2.2.1
    · exact (hfr _).2.2.2.2.2.1

/-- C5: after any sequence of intervening zone moves, draws, random
discards and shuffles, `resetPlayer` rebuilds the player from
`initialDeck`: the id multiset of library plus hand is exactly
`initialDeck` minus the designated commanders, the commanders sit in the
commander zone, and battlefield, graveyard and exile are empty. -/
theorem claim_C5_resetPlayer (rand : Nat → Nat) (st : SessionType)
    (p0 : Player) (ops : List PlayerOp)
    (hstd : st = SessionType.standard → p0.commanders.getD [] = []) :
    ids (resetPlayerP rand st (applyOps ops p0)).library
        + ids (resetPlayerP rand st (applyOps ops p0)).hand
      = ids p0.initialDeck - ids (p0.commanders.getD []) ∧
      (resetPlayerP rand st (applyOps ops p0)).commanderZone
        = (if st = SessionType.commander then p0.commanders.getD [] else []) ∧
      (resetPlayerP rand st (applyOps ops p0)).battlefield = [] ∧
      (resetPlayerP rand st (applyOps ops p0)).graveyard = [] ∧
      (resetPlayerP rand st (applyOps ops p0)).exile = [] := by
  obtain ⟨hd, hsb, hcm⟩ := applyOps_preserves ops p0
  have h := resetPlayerP_spec rand st (applyOps ops p0)
    (fun hs => by rw [hcm]; exact hstd hs)
  rw [hd, hcm] at h
  exact h

/-- C5 (witness): resetting the concrete commander player after an
intervening draw restores exactly deck-minus-commander. -/
theorem claim_C5_witness :
    ids (resetPlayerP (fun _ => 0) SessionType.commander
          (applyOps [PlayerOp.draw 1] playerC5)).library
        + ids (resetPlayerP (fun _ => 0) SessionType.commander
          (applyOps [PlayerOp.draw 1] playerC5)).hand
      = ids playerC5.initialDeck - ids [mkCard "X"] ∧
      (resetPlayerP (fun _ => 0) SessionType.commander
          (applyOps [PlayerOp.draw 1] playerC5)).commanderZone = [mkCard "X"] := by
  have h := claim_C5_resetPlayer (fun _ => 0) SessionType.commander playerC5
    [PlayerOp.draw 1] (by decide)
  exact ⟨h.1, h.2.1⟩

/-! ### Claim C7: joining prepares zones, only startGame draws -/

theorem shuffle_length (rand : Nat → Nat) (l : List α) :
    (shuffle rand l).length = l.length :=
  (shuffle_perm rand l).length_eq

/-- Hand size after the `startGame` per-player body: exactly
`min 7 |deck minus commanders|`, the 7-card opening draw. -/
theorem startGamePlayerP_hand_len (rand2 : Nat → Nat) (st : SessionType)
    (p : Player) (hdeck : p.initialDeck ≠ [])
    (hcmd : st = SessionType.commander → p.commanders.getD [] ≠ []) :
    (startGamePlayerP rand2 st p).hand.length
      = min 7 (((if st = SessionType.commander then p.commanders.getD []
            else []).foldl (fun d c => removeFirstById d c.id)
            p.initialDeck).length) := by
  unfold startGamePlayerP
  rw [if_neg (by simpa [List.length_eq_zero] using hdeck)]
  cases st with
  | commander =>
    rw [if_pos rfl, if_neg (hcmd rfl)]
    dsimp only
    rw [drawN_hand_len]
    dsimp only
    rw [shuffle_length]
    simp
  | standard =>
    rw [if_neg (by decide)]
    dsimp only
    rw [drawN_hand_len]
    dsimp only
    rw [shuffle_length]
    simp

theorem players_ite (c : Prop) [Decidable c] (s1 s2 : Session)
    (ps : List Player) (h1 : s1.players = ps) (h2 : s2.players = ps) :
    (if c then s1 else s2).players = ps := by
  by_cases hc : c <;> simp [hc, h1, h2]

/-- C7: a successful new-player `joinSession` draws no opening hand — the
hand is empty and the library is a permutation of the submitted deck minus
the designated commanders — and the 7-card opening draw happens in
`startGame`, whose per-player body deals `min 7 |library|` cards. -/
theorem claim_C7_join (socketId playerName : String)
    (deck sideboardCards : List CardType)
    (commanderCard : Option (List CardType)) (rand : Nat → Nat) (s : Session)
    (hname : (s.players.any (fun p => p.name = playerName)) = false)
    (hdeck : deck ≠ [])
    (hcmd : s.sessionType = SessionType.commander → commanderCard.getD [] ≠ []) :
    ∃ newP : Player,
      (joinSessionE socketId playerName deck sideboardCards commanderCard
          rand s).1.players = s.players ++ [newP] ∧
        newP.hand = [] ∧
        ids newP.library
          = ids deck - ids (if s.sessionType = SessionType.commander
              then commanderCard.getD [] else []) ∧
        newP.initialDeck = deck ∧
        ∀ rand2 : Nat → Nat,
          (startGamePlayerP rand2 s.sessionType newP).hand.length
            = min 7 (((if s.sessionType = SessionType.commander
                then commanderCard.getD [] else []).foldl
                (fun d c => removeFirstById d c.id) deck).length) := by
  unfold joinSessionE
  rw [if_neg (by simp [hname]),
    if_neg (by simpa [List.length_eq_zero] using hdeck),
    if_neg (fun hpair => hcmd hpair.1 (List.length_eq_zero.mp hpair.2))]
  dsimp only
  refine ⟨_, players_ite _ _ _ _ rfl rfl, rfl, ?_, rfl, ?_⟩
  · show ids (shuffle rand _) = _
    rw [ids_shuffle]
    by_cases hst : s.sessionType = SessionType.commander
    · simp only [if_pos hst]
      exact ids_foldl_remove _ _
    · simp only [if_neg hst]
      simp [ids]
  · intro rand2
    rw [startGamePlayerP_hand_len rand2 s.sessionType _ hdeck]
    · by_cases hst : s.sessionType = SessionType.commander <;>
        simp only [if_pos, if_neg, hst, if_true, if_false] <;> rfl
    · intro hst
      dsimp only
      rw [if_pos hst]
      exact hcmd hst

/-- C7 (witness): joining the empty commander session with a three-card
deck and one commander yields an empty hand for the joined player. -/
theorem claim_C7_witness :
    ((joinSessionE "s1" "Pat" deckC7 [] (some [mkCard "X"]) (fun _ => 0)
        sessC7).1.players.map Player.hand) = [[]] := by
  obtain ⟨w, h1, h2, h3, h4, h5⟩ := claim_C7_join "s1" "Pat" deckC7 []
    (some [mkCard "X"]) (fun _ => 0) sessC7 (by decide) (by decide)
    (fun _ => by decide)
  rw [h1]
  simp [sessC7, h2]

end DragonsField
